import Mathlib

set_option maxRecDepth 8000

/-!
Shallow embedding of the invoice field-extraction engine of
`src/extractor.py` (class `FacturaExtractor`).

Conventions used throughout:
* a token is the pair `(word, box)` produced by the OCR step; boxes are the
  four non-negative integers `[x0, y0, x1, y1]` of the input contract, with
  `y0` the top edge and `y1` the bottom edge;
* Python string operations (`upper`, `strip`, `isdigit`, substring `in`,
  `" ".join`) are modelled character-exactly for the Latin alphabet this
  document family uses;
* the regular expressions of `self.patrones` and the shape regexes used by
  the anchor tiers are modelled by a small backtracking matcher `reM` with
  exactly the Python `re` semantics needed here: leftmost search position
  wins, alternatives are tried left to right, quantifiers are greedy, and
  the single capturing group of each pattern is returned;
* Python float division inside `_create_vertical_zones`
  (`int(box[1] / (max_height / 3))`) is modelled exactly over the integers
  as `3 * y / h` (floor division), and the `ZeroDivisionError` raised when
  `max_height == 0` is modelled by `Option`/`Except` error values;
* `float(word.replace(".", "").replace(",", "."))` in `_extract_total` is
  modelled by an exact rational parser that fails (like Python `float`)
  when the normalised word is not a decimal literal.
-/

/-- Bounding box `[x0, y0, x1, y1]` of a token; `y0` is the top edge and
`y1` the bottom edge (y grows downward). -/
structure Box where
  x0 : Nat
  y0 : Nat
  x1 : Nat
  y1 : Nat
  deriving DecidableEq, Repr

/-- One OCR token: the pair `(word, box)` of `ocr_results`. -/
structure Token where
  word : String
  box : Box
  deriving DecidableEq, Repr

/-- One extracted line item (`{"description": ..., "amount": ...}`). -/
structure Item where
  description : String
  amount : String
  deriving DecidableEq, Repr

/-- The output record `invoice_data`, in the field order of the Python
dict literal of `extract_info`. -/
structure InvoiceData where
  invoice_number : Option String
  date : Option String
  total : Option String
  client_name : Option String
  client_id : Option String
  items : List Item
  deriving DecidableEq, Repr

/-- Token used for (unreachable) out-of-range list indexing. -/
def defaultToken : Token := ⟨"", ⟨0, 0, 0, 0⟩⟩

/-- `ocr_results[i]`; the call sites below only index in range, so the
default value is never observed. -/
def getTok (ocr : List Token) (i : Nat) : Token :=
  ocr.getD i defaultToken

/-- `enumerate(ocr_results)` starting at `n`. -/
def enumFrom {α : Type} : Nat → List α → List (Nat × α)
  | _, [] => []
  | n, a :: as => (n, a) :: enumFrom (n + 1) as

/-- The whitespace characters of Python `\s` (ASCII range). -/
def isPySpace (c : Char) : Bool :=
  c = ' ' || c = '\t' || c = '\n' || c = '\r' || c = '\x0b' || c = '\x0c'

/-- Python `str.upper` on one character, for the Latin alphabet used by
this document family (ASCII letters plus the accented Spanish letters
appearing in the keyword tables). -/
def pyUpperChar (c : Char) : Char :=
  if 'a' ≤ c && c ≤ 'z' then c.toUpper
  else if c = 'á' then 'Á'
  else if c = 'é' then 'É'
  else if c = 'í' then 'Í'
  else if c = 'ó' then 'Ó'
  else if c = 'ú' then 'Ú'
  else if c = 'ñ' then 'Ñ'
  else if c = 'ü' then 'Ü'
  else c

/-- Python `word.upper()`. -/
def pyUpper (s : String) : String :=
  String.mk (s.toList.map pyUpperChar)

/-- `needle.isPrefixOf hay` on character lists. -/
def listPrefix : List Char → List Char → Bool
  | [], _ => true
  | _ :: _, [] => false
  | a :: as, b :: bs => a = b && listPrefix as bs

/-- Substring test on character lists (`needle` occurs inside `hay`). -/
def containsL (needle : List Char) : List Char → Bool
  | [] => needle.isEmpty
  | b :: bs => listPrefix needle (b :: bs) || containsL needle bs

/-- Python `sub in hay` substring test. -/
def containsStr (hay sub : String) : Bool :=
  containsL sub.toList hay.toList

/-- Python `str.strip()` (whitespace trimmed from both ends). -/
def pyStrip (s : String) : String :=
  String.mk (((s.toList.dropWhile isPySpace).reverse.dropWhile isPySpace).reverse)

/-- Python `str.isdigit()` (non-empty and all digits). -/
def pyIsDigit (s : String) : Bool :=
  !s.toList.isEmpty && s.toList.all Char.isDigit

/-- `abs (a - b)` for the Python `abs(int - int)` proximity tests. -/
def natDist (a b : Nat) : Nat :=
  max a b - min a b

/-- `texto_completo = " ".join([word for word, _ in ocr_results])`. -/
def textoCompleto (ocr : List Token) : String :=
  String.intercalate " " (ocr.map Token.word)

/-- `[lo, lo+1, ..., hi-1]`, the Python `range(lo, hi)` (empty when
`hi ≤ lo`). -/
def idxRange (lo hi : Nat) : List Nat :=
  List.range' lo (hi - lo)

/-!
## A small backtracking regex matcher

Just enough of Python `re` for the patterns of `extractor.py`:
character classes, concatenation, alternation (left preference), greedy
star, and a single capturing group.  Bounded greedy quantifiers are
compiled to nested alternations, so a successful match explores exactly
the candidate splits Python explores, in the same order.
-/

/-- Regular expression syntax. `cls` is a character class, `alt` prefers
its left alternative, `star` is greedy, and `group` is the (unique)
capturing group of a pattern. -/
inductive RE where
  | eps : RE
  | cls : (Char → Bool) → RE
  | seq : RE → RE → RE
  | alt : RE → RE → RE
  | star : RE → RE
  | group : RE → RE

/-- Syntactic size of a regex, used to bound the matcher fuel. -/
def reSize : RE → Nat
  | .eps => 1
  | .cls _ => 1
  | .seq a b => reSize a + reSize b + 1
  | .alt a b => reSize a + reSize b + 1
  | .star r => reSize r + 1
  | .group r => reSize r + 1

/-- Backtracking matcher in continuation style.  The continuation receives
the unconsumed suffix and the capture of the group (if the group has been
traversed).  Alternation tries the left branch first and `star` tries the
longer match first, exactly like Python backtracking.  The fuel only
bounds the recursion depth; `reFuel` below always supplies enough of it,
since every `star` iteration consumes at least one character (every
starred subexpression of the patterns modelled here consumes input). -/
def reM : Nat → RE → List Char → (List Char → Option (List Char) → Option (List Char)) →
    Option (List Char)
  | 0, _, _, _ => none
  | _ + 1, .eps, s, k => k s none
  | _ + 1, .cls _, [], _ => none
  | _ + 1, .cls f, c :: s, k => if f c then k s none else none
  | fuel + 1, .seq a b, s, k =>
    reM fuel a s (fun s₁ c₁ =>
      reM fuel b s₁ (fun s₂ c₂ =>
        k s₂ (match c₁ with | some c => some c | none => c₂)))
  | fuel + 1, .alt a b, s, k =>
    match reM fuel a s k with
    | some r => some r
    | none => reM fuel b s k
  | fuel + 1, .star r, s, k =>
    match reM fuel r s (fun s₁ c₁ =>
        if s₁.length < s.length then
          reM fuel (.star r) s₁ (fun s₂ c₂ =>
            k s₂ (match c₁ with | some c => some c | none => c₂))
        else none) with
    | some res => some res
    | none => k s none
  | fuel + 1, .group r, s, k =>
    reM fuel r s (fun s₁ _ => k s₁ (some (s.take (s.length - s₁.length))))

/-- Fuel that strictly dominates the matcher recursion depth on `l`. -/
def reFuel (r : RE) (l : List Char) : Nat :=
  (reSize r + 2) * (l.length + 2)

/-- Try to match `r` against a prefix of `l` (Python `re.match` at one
position); on success return the capture of the group (`[]` when the
pattern has no group). -/
def reMatchAt (r : RE) (l : List Char) : Option (List Char) :=
  reM (reFuel r l) r l (fun _ cap => some (cap.getD []))

/-- Python `re.search`: try every start position left to right. -/
def reSearchL (r : RE) : List Char → Option (List Char)
  | [] => reMatchAt r []
  | c :: cs =>
    match reMatchAt r (c :: cs) with
    | some cap => some cap
    | none => reSearchL r cs

/-- `re.search(pattern, s)` returning `group(1)`. -/
def reSearch (r : RE) (s : String) : Option String :=
  (reSearchL r s.toList).map String.mk

/-- `re.match(pattern, s)` used as a boolean prefix test. -/
def reTest (r : RE) (s : String) : Bool :=
  (reMatchAt r s.toList).isSome

/-- The pattern loops of the extractors: first pattern whose `re.search`
matches wins; its first capture group is returned. -/
def searchPatterns : List RE → String → Option String
  | [], _ => none
  | p :: ps, s =>
    match reSearch p s with
    | some g => some g
    | none => searchPatterns ps s

/-! ### Pattern combinators -/

/-- Concatenation of a list of regexes. -/
def rseq (l : List RE) : RE := l.foldr RE.seq RE.eps

/-- Greedy `?`. -/
def ropt (r : RE) : RE := RE.alt r RE.eps

/-- Greedy `+`. -/
def rplus (r : RE) : RE := RE.seq r (RE.star r)

/-- `{n}`: exactly `n` repetitions. -/
def repN (n : Nat) (r : RE) : RE := rseq (List.replicate n r)

/-- Greedy `{0,n}` as nested options (longest first, like Python). -/
def upTo : Nat → RE → RE
  | 0, _ => RE.eps
  | n + 1, r => ropt (RE.seq r (upTo n r))

/-- Greedy `{lo,hi}`. -/
def rng (lo hi : Nat) (r : RE) : RE := RE.seq (repN lo r) (upTo (hi - lo) r)

/-- Case-sensitive literal. -/
def litCS (s : String) : RE :=
  rseq (s.toList.map (fun c => RE.cls (fun x => x = c)))

/-- Literal under `re.IGNORECASE` (ASCII case folding; the literals of the
patterns are ASCII apart from `°`/`º`, which have no case). -/
def litCI (s : String) : RE :=
  rseq (s.toList.map (fun c => RE.cls (fun x => x.toLower = c.toLower)))

/-- Alternation over a non-empty list, left preference. -/
def ralt : RE → List RE → RE
  | r, [] => r
  | r, p :: ps => RE.alt r (ralt p ps)

/-! ### Character classes of the patterns -/

/-- `\d`. -/
def dC : RE := RE.cls Char.isDigit

/-- `\s`. -/
def wsC : RE := RE.cls isPySpace

/-- `[\s:]`. -/
def wsColonC : RE := RE.cls (fun c => isPySpace c || c = ':')

/-- `[/\-\.]`. -/
def sepC : RE := RE.cls (fun c => c = '/' || c = '-' || c = '.')

/-- `[/\-]`. -/
def sep2C : RE := RE.cls (fun c => c = '/' || c = '-')

/-- `\.` (a literal dot). -/
def dotC : RE := RE.cls (fun c => c = '.')

/-- `,` (a literal comma). -/
def commaC : RE := RE.cls (fun c => c = ',')

/-- ASCII letter test. -/
def isAsciiAlpha (c : Char) : Bool :=
  ('A' ≤ c && c ≤ 'Z') || ('a' ≤ c && c ≤ 'z')

/-- `[A-Z\s]` under `re.IGNORECASE` (both cases match). -/
def azSpC : RE := RE.cls (fun c => isAsciiAlpha c || isPySpace c)

/-- `[A-Z0-9]` under `re.IGNORECASE`. -/
def alnumCI : RE := RE.cls (fun c => isAsciiAlpha c || c.isDigit)

/-- `[A-Za-z0-9]` (case-sensitive shape regex). -/
def alnumCS : RE := RE.cls (fun c => isAsciiAlpha c || c.isDigit)

/-- `[.,]`. -/
def dotCommaC : RE := RE.cls (fun c => c = '.' || c = ',')

/-! ### The `self.patrones` tables (searched with `re.IGNORECASE`) -/

/-- `(?:N°|N|N[úu]mero|No|Nº)`. -/
def numeroAlt : RE :=
  ralt (litCI "N°")
    [litCI "N",
     rseq [litCI "N", RE.cls (fun c => c = 'ú' || c = 'u' || c = 'Ú' || c = 'U'), litCI "mero"],
     litCI "No",
     litCI "Nº"]

/-- `(?:FACTURA|factura|Fra|fac)`. -/
def facturaAlt : RE :=
  ralt (litCI "FACTURA") [litCI "factura", litCI "Fra", litCI "fac"]

/-- `(\d+[/\-\.]*\d*)`. -/
def grpNum : RE := RE.group (rseq [rplus dC, RE.star sepC, RE.star dC])

/-- `self.patrones["invoice_number"]`. -/
def patrones_invoice_number : List RE :=
  [rseq [numeroAlt, RE.star wsC, ropt (litCI "de"), RE.star wsC, facturaAlt,
         RE.star wsColonC, grpNum],
   rseq [facturaAlt, RE.star wsColonC, numeroAlt, RE.star wsColonC, grpNum],
   rseq [facturaAlt, RE.star wsColonC, grpNum]]

/-- `\d{1,2}[/\-\.]\d{1,2}[/\-\.]\d{2,4}`. -/
def dateCore : RE :=
  rseq [rng 1 2 dC, sepC, rng 1 2 dC, sepC, rng 2 4 dC]

/-- `\d{1,2}[/\-]\d{1,2}[/\-]\d{2,4}`. -/
def dateCore2 : RE :=
  rseq [rng 1 2 dC, sep2C, rng 1 2 dC, sep2C, rng 2 4 dC]

/-- `self.patrones["date"]`. -/
def patrones_date : List RE :=
  [rseq [ralt (litCI "FECHA") [litCI "fecha", litCI "Date"], RE.star wsColonC,
         RE.group dateCore],
   RE.group dateCore2]

/-- `([A-Z\s]+(?:\sS\.?L\.?|S\.?A\.?))`. -/
def nameCore : RE :=
  RE.group (RE.seq (rplus azSpC)
    (RE.alt (rseq [wsC, litCI "S", ropt dotC, litCI "L", ropt dotC])
            (rseq [litCI "S", ropt dotC, litCI "A", ropt dotC])))

/-- `self.patrones["client_name"]`. -/
def patrones_client_name : List RE :=
  [rseq [ralt (litCI "CLIENTE") [litCI "cliente", litCI "Client"], RE.star wsColonC, nameCore],
   rseq [ralt (litCI "NOMBRE") [litCI "nombre", litCI "Name"], RE.star wsColonC, nameCore],
   rseq [ralt (litCI "RAZON SOCIAL") [litCI "razon social"], RE.star wsColonC, nameCore]]

/-- `(?:N\.?I\.?F\.?|CIF|C\.I\.F\.|NIF)`. -/
def nifAlt : RE :=
  ralt (rseq [litCI "N", ropt dotC, litCI "I", ropt dotC, litCI "F", ropt dotC])
    [litCI "CIF", litCI "C.I.F.", litCI "NIF"]

/-- `self.patrones["client_id"]`. -/
def patrones_client_id : List RE :=
  [rseq [nifAlt, RE.star wsColonC, RE.group (repN 9 alnumCI)],
   rseq [rseq [litCI "N", ropt dotC, litCI "L", ropt dotC, litCI "F", ropt dotC],
         RE.star wsColonC, RE.group (repN 9 alnumCI)]]

/-- `\d{1,3}(?:\.\d{3})*,\d{2}`. -/
def currencyCore : RE :=
  rseq [rng 1 3 dC, RE.star (rseq [dotC, repN 3 dC]), commaC, repN 2 dC]

/-- `self.patrones["total"]`. -/
def patrones_total : List RE :=
  [rseq [ralt (litCI "TOTAL") [litCI "Total", litCI "total"], RE.star wsColonC,
         RE.group currencyCore],
   rseq [ralt (litCI "IMPORTE") [litCI "Importe", litCI "importe"], RE.star wsColonC,
         ropt (ralt (litCI "LIQUIDO") [litCI "liquido", litCI "TOTAL", litCI "total"]),
         RE.star wsColonC, RE.group currencyCore],
   rseq [ralt (litCI "LIQUIDO") [litCI "liquido"], RE.star wsColonC, RE.group currencyCore]]

/-! ### Shape regexes of the anchor and line-item tiers (`re.match`, no flags) -/

/-- `\d{1,2}/\d{1,2}` (invoice-number shape, e.g. `24/62`). -/
def invShape1 : RE := rseq [rng 1 2 dC, RE.cls (fun c => c = '/'), rng 1 2 dC]

/-- `\d{2,6}` (plain invoice number). -/
def invShape2 : RE := rng 2 6 dC

/-- `\d{1,2}/\d{1,2}/\d{2,4}` (date shape). -/
def dateShape : RE :=
  rseq [rng 1 2 dC, RE.cls (fun c => c = '/'), rng 1 2 dC, RE.cls (fun c => c = '/'), rng 2 4 dC]

/-- `\d{1,3}(?:\.\d{3})*,\d{2}` (currency shape). -/
def currencyShape : RE := currencyCore

/-- `[A-Za-z0-9]{3,8}` (line-item row opener). -/
def rowOpenerShape : RE := rng 3 8 alnumCS

/-- `\d+[.,]\d{2}` (numeric-amount filter of the fallback description search). -/
def numAmtShape : RE := rseq [rplus dC, dotCommaC, repN 2 dC]

/-!
## `_create_vertical_zones`

`max_height = max(box[3]) if any else 1000`; each token goes to zone
`int(box[1] / (max_height / 3))`.  The float quotient is modelled exactly:
for non-negative integers `int(y / (h/3)) = (3 * y) / h` (floor division).
With `max_height == 0` and a non-empty stream, the first division raises
`ZeroDivisionError` in Python; that is the `none` result below.
-/

/-- `max_height = max(height_values) if height_values else 1000`. -/
def maxHeight (ocr : List Token) : Nat :=
  if ocr.isEmpty then 1000 else (ocr.map (fun t => t.box.y1)).foldl max 0

/-- Zone index of a token top edge: `int(box[1] / (max_height / 3))`,
modelled exactly as `(3 * y) / max_height`. -/
def vZone (h y : Nat) : Nat := 3 * y / h

/-- The list `zones[z]` of the defaultdict built by
`_create_vertical_zones`: the `(i, token)` pairs assigned to zone `z`, in
stream order. -/
def zoneEntries (ocr : List Token) (z : Nat) : List (Nat × Token) :=
  (enumFrom 0 ocr).filter (fun p => vZone (maxHeight ocr) p.2.box.y0 == z)

/-- `_create_vertical_zones`; `none` is the `ZeroDivisionError` raised
when the stream is non-empty and every bottom edge is `0`. -/
def create_vertical_zones (ocr : List Token) : Option (Nat → List (Nat × Token)) :=
  if !ocr.isEmpty && maxHeight ocr == 0 then none
  else some (zoneEntries ocr)

/-!
## `_identify_functional_blocks`
-/

/-- The five functional areas, in the (insertion-ordered) priority order
of the `self.palabras_clave` dict. -/
inductive Area where
  | cabecera | cliente | detalle | totales | pie
  deriving DecidableEq, Repr

/-- `self.palabras_clave`. -/
def palabras_clave : Area → List String
  | .cabecera => ["FACTURA", "FECHA", "NÚMERO", "N°", "EMISIÓN"]
  | .cliente => ["CLIENTE", "N.I.F", "NIF", "N.L.F", "DIRECCIÓN", "DOMICILIO"]
  | .detalle => ["CONCEPTO", "DESCRIPCIÓN", "DESCRIPCION", "CANTIDAD", "PRECIO",
                 "CARGOS", "ABONOS", "__DESCRIPCION"]
  | .totales => ["TOTAL", "SUBTOTAL", "BASE", "I.V.A", "IVA", "IMPORTE", "LIQUIDO"]
  | .pie => ["FORMA", "PAGO", "VENCIMIENTO", "OBSERVACIONES"]

/-- Iteration order of `self.palabras_clave.items()`. -/
def areaOrder : List Area := [.cabecera, .cliente, .detalle, .totales, .pie]

/-- `any(keyword in word_upper for keyword in keywords)`. -/
def matchesArea (a : Area) (wordUpper : String) : Bool :=
  (palabras_clave a).any (fun kw => containsStr wordUpper kw)

/-- The first area (in priority order) whose keyword list matches; the
`break` of the Python loop makes the first match win. -/
def firstArea (wordUpper : String) : Option Area :=
  areaOrder.findSome? (fun a => if matchesArea a wordUpper then some a else none)

/-- The `bloques` dict: one list of `(i, token)` per area. -/
structure Blocks where
  cabecera : List (Nat × Token)
  cliente : List (Nat × Token)
  detalle : List (Nat × Token)
  totales : List (Nat × Token)
  pie : List (Nat × Token)
  deriving DecidableEq, Repr

/-- The initial empty `bloques`. -/
def emptyBlocks : Blocks := ⟨[], [], [], [], []⟩

/-- `bloques[area].append(e)`. -/
def pushArea (b : Blocks) (a : Area) (e : Nat × Token) : Blocks :=
  match a with
  | .cabecera => { b with cabecera := b.cabecera ++ [e] }
  | .cliente => { b with cliente := b.cliente ++ [e] }
  | .totales => { b with totales := b.totales ++ [e] }
  | .detalle => { b with detalle := b.detalle ++ [e] }
  | .pie => { b with pie := b.pie ++ [e] }

/-- Number of occurrences of `x` in a list. -/
def cnt {α : Type} [DecidableEq α] (x : α) : List α → Nat
  | [] => 0
  | a :: as => (if a = x then 1 else 0) + cnt x as

/-- Total number of occurrences of an `(i, token)` pair across the five
block lists; `any((i, word, box) in items for items in bloques.values())`
is `0 < countAll b e`. -/
def countAll (b : Blocks) (e : Nat × Token) : Nat :=
  cnt e b.cabecera + cnt e b.cliente + cnt e b.detalle + cnt e b.totales + cnt e b.pie

/-- One iteration of the keyword pass of `_identify_functional_blocks`. -/
def keywordStep (b : Blocks) (e : Nat × Token) : Blocks :=
  match firstArea (pyUpper e.2.word) with
  | some a => pushArea b a e
  | none => b

/-- The keyword pass over `enumerate(ocr_results)`. -/
def keywordBlocks (ocr : List Token) : Blocks :=
  (enumFrom 0 ocr).foldl keywordStep emptyBlocks

/-- `min` of a list (only applied to non-empty lists below). -/
def listMin : List Nat → Nat
  | [] => 0
  | x :: xs => xs.foldl Nat.min x

/-- `max` of a list (only applied to non-empty lists below). -/
def listMax : List Nat → Nat
  | [] => 0
  | x :: xs => xs.foldl Nat.max x

/-- One iteration of the positional pass: a token whose top edge lies in
`[minY, maxY]` is appended to `detalle` when the triple is not already a
member of any (current) block list. -/
def posStep (minY maxY : Nat) (b : Blocks) (e : Nat × Token) : Blocks :=
  if minY ≤ e.2.box.y0 ∧ e.2.box.y0 ≤ maxY ∧ countAll b e = 0 then
    { b with detalle := b.detalle ++ [e] }
  else b

/-- `_identify_functional_blocks`: the keyword pass, then (when the
`detalle` list is non-empty) the positional pass over the whole stream. -/
def identify_functional_blocks (ocr : List Token) : Blocks :=
  let b := keywordBlocks ocr
  if b.detalle.isEmpty then b
  else
    let minY := listMin (b.detalle.map (fun e => e.2.box.y0))
    let maxY := listMax (b.detalle.map (fun e => e.2.box.y1))
    (enumFrom 0 ocr).foldl (posStep minY maxY) b

/-!
## Field extractors

Each follows the Python early-return cascade.  The advisory
`_analyze_spatial_context` result is computed by `extract_info` but never
consumed by any extractor and performs only pure arithmetic (it cannot
fail), so it is not part of the state modelled here.
-/

/-- Index of the first token satisfying a predicate (Python linear scan
with `break`). -/
def findIdxTok (p : Token → Bool) : List Token → Option Nat
  | [] => none
  | t :: ts => if p t then some 0 else (findIdxTok p ts).map (fun i => i + 1)

/-- `_extract_invoice_number`.  The `word not in invoice_data.values()`
guard of the plain-number branch compares a string against the initial
values `[None, None, None, None, None, []]` and is therefore always true
(invoice number extraction runs first); the two shape branches of the
window scan both return the bare word. -/
def extract_invoice_number (ocr : List Token) : Option String :=
  match searchPatterns patrones_invoice_number (textoCompleto ocr) with
  | some g => some (pyStrip g)
  | none =>
    match findIdxTok (fun t => containsStr (pyUpper t.word) "FACTURA") ocr with
    | none => none
    | some fi =>
      (idxRange (fi - 3) (min (fi + 5) ocr.length)).findSome? (fun i =>
        let w := (getTok ocr i).word
        if reTest invShape1 w || reTest invShape2 w then some w else none)

/-- `_extract_date`. -/
def extract_date (ocr : List Token) : Option String :=
  match searchPatterns patrones_date (textoCompleto ocr) with
  | some g => some (pyStrip g)
  | none =>
    match findIdxTok (fun t => containsStr (pyUpper t.word) "FECHA") ocr with
    | none => none
    | some fi =>
      (idxRange (fi - 3) (min (fi + 5) ocr.length)).findSome? (fun i =>
        let w := (getTok ocr i).word
        if reTest dateShape w then some w else none)

/-- The top-zone client-name strategy of `_extract_client_info`: first
zone-0 word containing `CAPITAL`, `PAN` or `SL` (case-sensitive) opens a
candidate; the first of the next five stream words containing `SL` closes
the name, which is the join of the words from the candidate through the
closing word. -/
def zone0ClientName (ocr : List Token) : Option String :=
  let z0 := zoneEntries ocr 0
  if z0.isEmpty then none
  else
    z0.findSome? (fun p =>
      let w := p.2.word
      if containsStr w "CAPITAL" || containsStr w "PAN" || containsStr w "SL" then
        (idxRange p.1 (min (p.1 + 5) ocr.length)).findSome? (fun j =>
          if containsStr (getTok ocr j).word "SL" then
            some (String.intercalate " " ((idxRange p.1 (j + 1)).map (fun k => (getTok ocr k).word)))
          else none)
      else none)

/-- The `CLIENTE`-anchor fallback of `_extract_client_info`: first token
after the anchor (within four positions) that is longer than two
characters and not all digits. -/
def clienteAnchorName (ocr : List Token) : Option String :=
  match findIdxTok (fun t => containsStr (pyUpper t.word) "CLIENTE") ocr with
  | none => none
  | some ci =>
    (idxRange (ci + 1) (min (ci + 5) ocr.length)).findSome? (fun i =>
      let w := (getTok ocr i).word
      if 2 < w.length && !pyIsDigit w then some w else none)

/-- `_extract_client_info`, returning `(client_id, client_name)`.  Note
that the `client_name` patterns of `self.patrones` are never consulted by
the Python code: only the `client_id` pattern loop runs, then the zone-0
strategy, then the `CLIENTE` anchor. -/
def extract_client_info (ocr : List Token) : Option String × Option String :=
  let cid := (searchPatterns patrones_client_id (textoCompleto ocr)).map pyStrip
  let cname :=
    match zone0ClientName ocr with
    | some n => some n
    | none => clienteAnchorName ocr
  (cid, cname)

/-- The anchor-proximity tier of `_extract_total`: first token whose
uppercase text contains `LIQUIDO` or `TOTAL`; window `[idx-3, idx+8)`;
first currency-shaped word wins. -/
def anchorTotal (ocr : List Token) : Option String :=
  match findIdxTok (fun t =>
      containsStr (pyUpper t.word) "LIQUIDO" || containsStr (pyUpper t.word) "TOTAL") ocr with
  | none => none
  | some ti =>
    (idxRange (ti - 3) (min (ti + 8) ocr.length)).findSome? (fun i =>
      let w := (getTok ocr i).word
      if reTest currencyShape w then some w else none)

/-- Value of a `Nat` decimal digit string. -/
def digitsVal (l : List Char) : Nat :=
  l.foldl (fun n c => n * 10 + (c.toNat - 48)) 0

/-- An exact decimal value `(n, e)` denoting `n / 10 ^ e`.  The floats
Python compares in the zone fallback are decimal literals of this form;
their `float` comparisons agree with the exact rational comparisons
modelled by `keyLt`/`keyLe` below (the literals here are far below the
53-bit precision limit). -/
abbrev DecVal := Nat × Nat

/-- `a < b` on decimal values, by cross multiplication:
`a.1 / 10^a.2 < b.1 / 10^b.2`. -/
def keyLt (a b : DecVal) : Prop := a.1 * 10 ^ b.2 < b.1 * 10 ^ a.2

/-- `a ≤ b` on decimal values. -/
def keyLe (a b : DecVal) : Prop := a.1 * 10 ^ b.2 ≤ b.1 * 10 ^ a.2

instance (a b : DecVal) : Decidable (keyLt a b) := Nat.decLt _ _

instance (a b : DecVal) : Decidable (keyLe a b) := Nat.decLe _ _

/-- Python `float(s)` on the strings reachable here: an optional integer
part, an optional single dot, an optional fractional part (digits only,
at least one digit overall); anything else raises, i.e. returns `none`.
The value `ip.frac` is represented exactly as the decimal
`(ip * 10^|frac| + frac, |frac|)`. -/
def pyFloat (l : List Char) : Option DecVal :=
  let ip := l.takeWhile Char.isDigit
  let rest := l.drop ip.length
  match rest with
  | [] => if ip.isEmpty then none else some (digitsVal ip, 0)
  | '.' :: fr =>
    if !fr.all Char.isDigit then none
    else if ip.isEmpty && fr.isEmpty then none
    else some (digitsVal ip * 10 ^ fr.length + digitsVal fr, fr.length)
  | _ => none

/-- `float(x.replace(".", "").replace(",", "."))`: the numeric key of the
zone-fallback maximum. -/
def pyKey (w : String) : Option DecVal :=
  pyFloat ((w.toList.filter (fun c => c ≠ '.')).map (fun c => if c = ',' then '.' else c))

/-- Python `max(l, key=f)` for a non-empty list already holding its first
element: keeps the current maximum, replacing it only on a strictly larger
key; a key failure (`float` raising) aborts with `none`. -/
def pyMaxGo (f : String → Option DecVal) : String → DecVal → List String → Option String
  | cur, _, [] => some cur
  | cur, kcur, y :: ys =>
    match f y with
    | none => none
    | some ky => if keyLt kcur ky then pyMaxGo f y ky ys else pyMaxGo f cur kcur ys

/-- Python `max(l, key=f)`; `none` on an empty list or a key failure. -/
def pyMaxByKey (f : String → Option DecVal) : List String → Option String
  | [] => none
  | x :: xs =>
    match f x with
    | none => none
    | some kx => pyMaxGo f x kx xs

/-- The `importes` list of the zone fallback: currency-shaped words of the
bottom zone, in stream order. -/
def zone2Amounts (ocr : List Token) : List String :=
  ((zoneEntries ocr 2).map (fun p => p.2.word)).filter (reTest currencyShape)

/-- The bottom-zone fallback tier of `_extract_total`.  `Except.error ()`
is the `ValueError` Python `float` raises on a word that begins with a
currency shape but is not a float literal after separator normalisation. -/
def zoneTierTotal (ocr : List Token) : Except Unit (Option String) :=
  if (zoneEntries ocr 2).isEmpty then Except.ok none
  else
    let importes := zone2Amounts ocr
    if importes.isEmpty then Except.ok none
    else
      match pyMaxByKey pyKey importes with
      | some m => Except.ok (some m)
      | none => Except.error ()

/-- `_extract_total`: pattern tier, then anchor window, then bottom-zone
maximum. -/
def extract_total (ocr : List Token) : Except Unit (Option String) :=
  match searchPatterns patrones_total (textoCompleto ocr) with
  | some g => Except.ok (some (pyStrip g))
  | none =>
    match anchorTotal ocr with
    | some w => Except.ok (some w)
    | none => zoneTierTotal ocr

/-!
## `_extract_line_items`
-/

/-- Start-of-table keywords (case-sensitive substring tests on the raw
word, exactly as in the Python scan; the `DESCRIPCION` variant used there
is the literal `__DESCRIPCION`). -/
def headerKw (t : Token) : Bool :=
  containsStr t.word "__DESCRIPCION" || containsStr t.word "CONCEPTO" ||
    containsStr t.word "CARGOS"

/-- End-of-table keywords. -/
def boundKw (t : Token) : Bool :=
  containsStr t.word "TOTAL" || containsStr t.word "BASE" ||
    containsStr t.word "I.V.A" || containsStr t.word "LIQUIDO"

/-- `tabla_inicio_idx`: first token carrying a table-header keyword. -/
def tablaInicio (ocr : List Token) : Option Nat :=
  findIdxTok headerKw ocr

/-- The explicit end search: first index after `s` carrying a totals
keyword. -/
def tablaFinSearch (ocr : List Token) (s : Nat) : Option Nat :=
  (findIdxTok boundKw (ocr.drop (s + 1))).map (fun m => s + 1 + m)

/-- `tabla_fin_idx`: the explicit end when found, otherwise
`min(tabla_inicio_idx + 30, len(ocr_results))`. -/
def tablaFin (ocr : List Token) (s : Nat) : Nat :=
  match tablaFinSearch ocr s with
  | some e => e
  | none => min (s + 30) ocr.length

/-- A row opener: the `[A-Za-z0-9]` 3-to-8 prefix shape, or a word containing `Cuota`. -/
def rowOpener (w : String) : Bool :=
  reTest rowOpenerShape w || containsStr w "Cuota"

/-- The inner description loop of the structured scan: starting at `j`
with the accumulated description `acc`, stop with an amount on a
currency-shaped word, keep accumulating words vertically close to the
opener, and break without an amount once the description already has more
than one part and proximity fails.  Returns the parts, the amount (if
any) and the index where the loop stopped.  The fuel dominates
`fin - j`, so the `0` case is never reached from `rowScan`. -/
def innerScan (ocr : List Token) (fin openTop : Nat) :
    Nat → Nat → List String → List String × Option String × Nat
  | 0, j, acc => (acc, none, j)
  | fuel + 1, j, acc =>
    if j < fin then
      let nt := getTok ocr j
      if reTest currencyShape nt.word then (acc, some nt.word, j)
      else if natDist openTop nt.box.y0 < 20 then
        innerScan ocr fin openTop fuel (j + 1) (acc ++ [nt.word])
      else if 1 < acc.length then (acc, none, j)
      else innerScan ocr fin openTop fuel (j + 1) acc
    else (acc, none, j)

/-- The outer row loop of the structured scan (`while i < tabla_fin_idx`).
On a completed row the index jumps to just after the amount; otherwise it
advances by one.  The fuel dominates `fin - i`. -/
def rowScan (ocr : List Token) (fin : Nat) : Nat → Nat → List Item
  | 0, _ => []
  | fuel + 1, i =>
    if i < fin then
      let t := getTok ocr i
      if rowOpener t.word then
        match innerScan ocr fin t.box.y0 (fin + 1) (i + 1) [t.word] with
        | (parts, some amt, j) =>
          ⟨String.intercalate " " parts, amt⟩ :: rowScan ocr fin fuel (j + 1)
        | (_, none, _) => rowScan ocr fin fuel (i + 1)
      else rowScan ocr fin fuel (i + 1)
    else []

/-- The structured table scan: empty when no table-header keyword exists. -/
def structuredItems (ocr : List Token) : List Item :=
  match tablaInicio ocr with
  | none => []
  | some s => rowScan ocr (tablaFin ocr s) (tablaFin ocr s + 1) (s + 1)

/-- A fallback description candidate: longer than four characters, not an
amount, and free of `TOTAL` / `IVA` / `BASE`. -/
def descCand (w : String) : Bool :=
  4 < w.length && !reTest numAmtShape w && !containsStr w "TOTAL" &&
    !containsStr w "IVA" && !containsStr w "BASE"

/-- The backward description search of the fallback scan for the currency
word at index `i`: walk `range(i-1, max(0, i-10), -1)` for the first
candidate word, then (when its index is positive) prepend the vertically
close non-amount words of `range(j-1, max(0, j-5), -1)`; the Python
`insert(0, ...)` accumulation makes the prepended words ascend by index.
Default description: `"Servicio"`. -/
def backDesc (ocr : List Token) (i : Nat) : String :=
  let lo := i - 10
  let js := (List.range' (lo + 1) (i - 1 - lo)).reverse
  match js.findSome? (fun j =>
      if descCand (getTok ocr j).word then some j else none) with
  | none => "Servicio"
  | some j =>
    let pt := getTok ocr j
    if 0 < j then
      let klo := j - 5
      let ks := List.range' (klo + 1) (j - 1 - klo)
      let more := (ks.filter (fun k =>
          natDist (getTok ocr k).box.y0 pt.box.y0 < 20 &&
            !reTest numAmtShape (getTok ocr k).word)).map (fun k => (getTok ocr k).word)
      if more.isEmpty then pt.word
      else String.intercalate " " (more ++ [pt.word])
    else pt.word

/-- One step of the fallback scan: a currency-shaped word whose
predecessor (`ocr_results[max(0, i-1)]`, `Nat` subtraction) does not
contain `TOTAL` is appended with its backward description unless an item
with the same amount string already exists. -/
def fallbackStep (ocr : List Token) (acc : List Item) (p : Nat × Token) : List Item :=
  if reTest currencyShape p.2.word &&
      !containsStr (getTok ocr (p.1 - 1)).word "TOTAL" then
    if acc.any (fun it => it.amount == p.2.word) then acc
    else acc ++ [⟨backDesc ocr p.1, p.2.word⟩]
  else acc

/-- The fallback line-item scan over the whole stream. -/
def fallbackItems (ocr : List Token) : List Item :=
  (enumFrom 0 ocr).foldl (fallbackStep ocr) []

/-- `_extract_line_items`: the structured scan, or the fallback when it
produced no rows. -/
def extract_line_items (ocr : List Token) : List Item :=
  let structured := structuredItems ocr
  if structured.isEmpty then fallbackItems ocr else structured

/-!
## `extract_info`
-/

/-- `extract_info`: the zoner runs first (its `ZeroDivisionError` aborts
the whole call), then the field extractors fill the record
(`_extract_total` may raise `ValueError` inside `float`), then the line
items.  The block classifier and `_analyze_spatial_context` also run but
cannot fail and do not influence any extracted field. -/
def extract_info (ocr : List Token) : Except Unit InvoiceData :=
  if !ocr.isEmpty && maxHeight ocr == 0 then Except.error ()
  else
    match extract_total ocr with
    | Except.error e => Except.error e
    | Except.ok tot =>
      Except.ok
        { invoice_number := extract_invoice_number ocr
          date := extract_date ocr
          total := tot
          client_name := (extract_client_info ocr).2
          client_id := (extract_client_info ocr).1
          items := extract_line_items ocr }

/-!
## Helper lemmas
-/

theorem cnt_append_single {α : Type} [DecidableEq α] (l : List α) (e x : α) :
    cnt x (l ++ [e]) = cnt x l + (if e = x then 1 else 0) := by
  induction l with
  | nil => simp [cnt]
  | cons a as ih => simp [cnt, ih, Nat.add_assoc]

theorem countAll_pushArea (b : Blocks) (a : Area) (e x : Nat × Token) :
    countAll (pushArea b a e) x = countAll b x + (if e = x then 1 else 0) := by
  cases a <;> simp [pushArea, countAll, cnt_append_single] <;> omega

theorem countAll_empty (e : Nat × Token) : countAll emptyBlocks e = 0 := by
  simp [countAll, emptyBlocks, cnt]

/-- Invariant of the keyword pass: every pair occurs at most once over the
block lists, and every occurring pair carries an already-processed index. -/
def kwInv (n : Nat) (b : Blocks) : Prop :=
  (∀ e, countAll b e ≤ 1) ∧ (∀ e, 0 < countAll b e → e.1 < n)

theorem keywordStep_inv (n : Nat) (t : Token) (b : Blocks) (h : kwInv n b) :
    kwInv (n + 1) (keywordStep b (n, t)) := by
  unfold keywordStep
  cases hfa : firstArea (pyUpper t.word) with
  | none => exact ⟨h.1, fun e he => Nat.lt_succ_of_lt (h.2 e he)⟩
  | some a =>
    constructor
    · intro e
      rw [countAll_pushArea]
      by_cases hex : (n, t) = e
      · have hz : countAll b e = 0 := by
          by_contra hc
          have := h.2 e (Nat.pos_of_ne_zero hc)
          rw [← hex] at this
          exact absurd this (Nat.lt_irrefl n)
        simp [hex, hz]
      · simpa [hex] using h.1 e
    · intro e he
      rw [countAll_pushArea] at he
      by_cases hex : (n, t) = e
      · rw [← hex]
        exact Nat.lt_succ_self n
      · simp [hex] at he
        exact Nat.lt_succ_of_lt (h.2 e he)

theorem keywordFold_inv : ∀ (l : List Token) (n : Nat) (b : Blocks), kwInv n b →
    kwInv (n + l.length) ((enumFrom n l).foldl keywordStep b) := by
  intro l
  induction l with
  | nil => intro n b h; simpa [enumFrom] using h
  | cons t ts ih =>
    intro n b h
    have hrec := ih (n + 1) (keywordStep b (n, t)) (keywordStep_inv n t b h)
    have harith : n + 1 + ts.length = n + (ts.length + 1) := by omega
    simpa [enumFrom, List.foldl, harith] using hrec

theorem posStep_le_one (lo hi : Nat) (b : Blocks) (p : Nat × Token)
    (h : ∀ e, countAll b e ≤ 1) : ∀ e, countAll (posStep lo hi b p) e ≤ 1 := by
  intro e
  unfold posStep
  split
  · rename_i hcond
    have hca : countAll { b with detalle := b.detalle ++ [p] } e =
        countAll b e + (if p = e then 1 else 0) := by
      simp [countAll, cnt_append_single]
      omega
    rw [hca]
    by_cases hpe : p = e
    · rw [← hpe]
      simp [hcond.2.2]
    · simpa [hpe] using h e
  · exact h e

theorem posFold_le_one (lo hi : Nat) : ∀ (l : List (Nat × Token)) (b : Blocks),
    (∀ e, countAll b e ≤ 1) → ∀ e, countAll (l.foldl (posStep lo hi) b) e ≤ 1 := by
  intro l
  induction l with
  | nil => intro b h; exact h
  | cons p ps ih => intro b h; exact ih _ (posStep_le_one lo hi b p h)

/-- C6.  Functional-block classification assigns every `(index, token)`
pair to at most one category: categories are tested in the fixed priority
order of `areaOrder` with the first keyword match winning, and the
positional pass only adds pairs not already present in any block list, so
in the final block map every pair occurs at most once over all five
category lists. -/
theorem block_classification_at_most_one_category (ocr : List Token) (e : Nat × Token) :
    countAll (identify_functional_blocks ocr) e ≤ 1 := by
  have hkw : kwInv (0 + ocr.length) (keywordBlocks ocr) :=
    keywordFold_inv ocr 0 emptyBlocks
      ⟨fun e => by simp [countAll_empty], fun e he => by simp [countAll_empty] at he⟩
  by_cases hd : (keywordBlocks ocr).detalle.isEmpty
  · simpa [identify_functional_blocks, hd] using hkw.1 e
  · simp only [identify_functional_blocks, hd, Bool.false_eq_true, if_false]
    exact posFold_le_one _ _ _ _ hkw.1 e

theorem foldl_max_init_le : ∀ (l : List Nat) (a : Nat), a ≤ l.foldl max a := by
  intro l
  induction l with
  | nil => intro a; simp
  | cons b bs ih =>
    intro a
    calc a ≤ max a b := Nat.le_max_left a b
      _ ≤ bs.foldl max (max a b) := ih (max a b)

theorem le_foldl_max : ∀ (l : List Nat) (a x : Nat), x ∈ l → x ≤ l.foldl max a := by
  intro l
  induction l with
  | nil => intro a x h; cases h
  | cons b bs ih =>
    intro a x h
    rcases List.mem_cons.mp h with rfl | h
    · calc x ≤ max a x := Nat.le_max_right a x
        _ ≤ bs.foldl max (max a x) := foldl_max_init_le bs (max a x)
      -- note `foldl max a (x :: bs)` is `foldl max (max a x) bs`
    · exact ih (max a b) x h

/-- C5 (amended).  The zoner never fails on an empty stream or on a
stream containing some token with a positive bottom edge: the division by
`max_height / 3` is only reached with a positive `max_height`. -/
theorem create_vertical_zones_no_failure (ocr : List Token)
    (h : ocr = [] ∨ ∃ t ∈ ocr, 0 < t.box.y1) :
    (create_vertical_zones ocr).isSome = true := by
  unfold create_vertical_zones
  rcases h with rfl | ⟨t, ht, hy⟩
  · rfl
  · have hne : ocr.isEmpty = false := by
      cases ocr with
      | nil => cases ht
      | cons a as => rfl
    have hmem : t.box.y1 ∈ ocr.map (fun u => u.box.y1) :=
      List.mem_map_of_mem (fun u => u.box.y1) ht
    have hmax : 0 < maxHeight ocr := by
      unfold maxHeight
      rw [hne]
      simp only [Bool.false_eq_true, if_false]
      exact Nat.lt_of_lt_of_le hy (le_foldl_max _ 0 _ hmem)
    have hcond : (!ocr.isEmpty && maxHeight ocr == 0) = false := by
      have : (maxHeight ocr == 0) = false := by
        simpa [Nat.beq_eq_true_eq] using Nat.pos_iff_ne_zero.mp hmax
      simp [this]
    rw [hcond]
    rfl

/-- C5 (counterexample to the claim as stated).  A well-formed non-empty
stream whose maximum bottom edge is `0` makes `_create_vertical_zones`
divide by zero: the zoner does have a failure mode. -/
theorem create_vertical_zones_zero_height_failure :
    create_vertical_zones [⟨"A", ⟨0, 0, 5, 0⟩⟩] = none := rfl

/-- C5 (witness). -/
theorem create_vertical_zones_no_failure_witness :
    (0 < (⟨"A", ⟨0, 0, 5, 3⟩⟩ : Token).box.y1) ∧
      (create_vertical_zones [⟨"A", ⟨0, 0, 5, 3⟩⟩]).isSome = true :=
  ⟨by decide,
   create_vertical_zones_no_failure [⟨"A", ⟨0, 0, 5, 3⟩⟩]
     (Or.inr ⟨⟨"A", ⟨0, 0, 5, 3⟩⟩, by decide, by decide⟩)⟩

/-- C3.  On the empty token stream `extract_info` raises nothing and
returns the fixed-shape record with all five scalar fields absent and an
empty item list; the zoning default height is `1000`. -/
theorem extract_info_empty_stream :
    extract_info [] = Except.ok ⟨none, none, none, none, none, []⟩ ∧ maxHeight [] = 1000 :=
  ⟨rfl, rfl⟩

/-- C7.  Zone assignment is non-negative and monotone in the top edge:
pairs listed in `zones[z]` satisfy `0 ≤ z`, and of two tokens of the same
stream the one with the larger (not smaller) top edge never lands in a
strictly lower zone. -/
theorem zone_assignment_nonneg_monotone (ocr : List Token) (p q : Nat × Token)
    (zp zq : Nat) (hp : p ∈ zoneEntries ocr zp) (hq : q ∈ zoneEntries ocr zq)
    (hy : q.2.box.y0 ≤ p.2.box.y0) : 0 ≤ zp ∧ zq ≤ zp := by
  have hzp : vZone (maxHeight ocr) p.2.box.y0 = zp := by
    have := (List.mem_filter.mp hp).2
    simpa using this
  have hzq : vZone (maxHeight ocr) q.2.box.y0 = zq := by
    have := (List.mem_filter.mp hq).2
    simpa using this
  refine ⟨Nat.zero_le zp, ?_⟩
  rw [← hzp, ← hzq]
  exact Nat.div_le_div_right (Nat.mul_le_mul_left 3 hy)

/-- C7 (witness). -/
theorem zone_assignment_nonneg_monotone_witness :
    ((1, (⟨"B", ⟨0, 9, 10, 10⟩⟩ : Token)) ∈ zoneEntries
        [⟨"A", ⟨0, 0, 10, 10⟩⟩, ⟨"B", ⟨0, 9, 10, 10⟩⟩] 2) ∧
    ((0, (⟨"A", ⟨0, 0, 10, 10⟩⟩ : Token)) ∈ zoneEntries
        [⟨"A", ⟨0, 0, 10, 10⟩⟩, ⟨"B", ⟨0, 9, 10, 10⟩⟩] 0) ∧
    ((0 : Nat) ≤ 2 ∧ (0 : Nat) ≤ 2) :=
  ⟨by decide, by decide,
   zone_assignment_nonneg_monotone [⟨"A", ⟨0, 0, 10, 10⟩⟩, ⟨"B", ⟨0, 9, 10, 10⟩⟩]
     (1, ⟨"B", ⟨0, 9, 10, 10⟩⟩) (0, ⟨"A", ⟨0, 0, 10, 10⟩⟩) 2 0
     (by decide) (by decide) (by decide)⟩

theorem getTok_drop : ∀ (n : Nat) (l : List Token) (m : Nat),
    getTok (l.drop n) m = getTok l (n + m) := by
  intro n
  induction n with
  | zero => intro l m; simp
  | succ n ih =>
    intro l m
    cases l with
    | nil => rfl
    | cons t ts =>
      show getTok (ts.drop n) m = getTok (t :: ts) (n + 1 + m)
      rw [ih]
      have harith : n + 1 + m = (n + m) + 1 := by omega
      rw [harith]
      rfl

theorem findIdxTok_some_spec (p : Token → Bool) :
    ∀ (l : List Token) (k : Nat), findIdxTok p l = some k →
      k < l.length ∧ p (getTok l k) = true ∧ ∀ j, j < k → p (getTok l j) = false := by
  intro l
  induction l with
  | nil => intro k h; simp [findIdxTok] at h
  | cons t ts ih =>
    intro k h
    unfold findIdxTok at h
    by_cases hp : p t
    · rw [if_pos hp] at h
      injection h with h
      rw [← h]
      exact ⟨Nat.succ_pos _, hp, fun j hj => absurd hj (Nat.not_lt_zero j)⟩
    · rw [if_neg hp] at h
      cases hfi : findIdxTok p ts with
      | none => rw [hfi] at h; simp at h
      | some k' =>
        rw [hfi] at h
        simp only [Option.map_some'] at h
        injection h with h
        obtain ⟨h1, h2, h3⟩ := ih k' hfi
        rw [← h]
        refine ⟨Nat.succ_lt_succ h1, h2, ?_⟩
        intro j hj
        cases j with
        | zero => simpa using hp
        | succ j' => exact h3 j' (Nat.lt_of_succ_lt_succ hj)

theorem findIdxTok_none_spec (p : Token → Bool) :
    ∀ (l : List Token), findIdxTok p l = none →
      ∀ j, j < l.length → p (getTok l j) = false := by
  intro l
  induction l with
  | nil => intro _ j hj; simp at hj
  | cons t ts ih =>
    intro h j hj
    unfold findIdxTok at h
    by_cases hp : p t
    · rw [if_pos hp] at h; simp at h
    · rw [if_neg hp] at h
      cases j with
      | zero => simpa using hp
      | succ j' =>
        cases hfi : findIdxTok p ts with
        | some k' => rw [hfi] at h; simp at h
        | none => exact ih hfi j' (Nat.lt_of_succ_lt_succ hj)

/-- C9.  Delimitation of the structured line-item table: the scan starts
at the first token carrying one of the header keywords (`__DESCRIPCION`
variant, `CONCEPTO`, `CARGOS`), falls through to the fallback scan when
no such token exists, and otherwise ends at the first later token carrying
`TOTAL`, `BASE`, `I.V.A` or `LIQUIDO`, with the window capped at
`start + 30` (bounded by the stream length) when no such token exists. -/
theorem line_item_table_delimitation (ocr : List Token) :
    (∀ k, tablaInicio ocr = some k →
       k < ocr.length ∧ headerKw (getTok ocr k) = true ∧
         ∀ j, j < k → headerKw (getTok ocr j) = false) ∧
    (tablaInicio ocr = none →
       (∀ j, j < ocr.length → headerKw (getTok ocr j) = false) ∧
         extract_line_items ocr = fallbackItems ocr) ∧
    (∀ s e, tablaFinSearch ocr s = some e →
       tablaFin ocr s = e ∧ s < e ∧ e < ocr.length ∧ boundKw (getTok ocr e) = true ∧
         ∀ j, s < j → j < e → boundKw (getTok ocr j) = false) ∧
    (∀ s, tablaFinSearch ocr s = none → tablaFin ocr s = min (s + 30) ocr.length) := by
  refine ⟨?_, ?_, ?_, ?_⟩
  · intro k h
    exact findIdxTok_some_spec headerKw ocr k h
  · intro h
    refine ⟨findIdxTok_none_spec headerKw ocr h, ?_⟩
    have hstruct : structuredItems ocr = [] := by
      unfold structuredItems tablaInicio
      unfold tablaInicio at h
      rw [h]
    simp [extract_line_items, hstruct]
  · intro s e h
    unfold tablaFinSearch at h
    cases hfi : findIdxTok boundKw (ocr.drop (s + 1)) with
    | none => rw [hfi] at h; simp at h
    | some m =>
      rw [hfi] at h
      simp only [Option.map_some'] at h
      injection h with h
      obtain ⟨h1, h2, h3⟩ := findIdxTok_some_spec boundKw _ m hfi
      rw [List.length_drop] at h1
      rw [getTok_drop] at h2
      have hfin : tablaFin ocr s = e := by
        unfold tablaFin tablaFinSearch
        rw [hfi]
        simp [h]
      refine ⟨hfin, by omega, by omega, by rw [← h]; exact h2, ?_⟩
      intro j hj1 hj2
      have hj : j = s + 1 + (j - (s + 1)) := by omega
      rw [hj, ← getTok_drop]
      exact h3 (j - (s + 1)) (by omega)
  · intro s h
    unfold tablaFin
    rw [h]

theorem nodup_append_single {α : Type} (l : List α) (a : α) (h : l.Nodup) (ha : a ∉ l) :
    (l ++ [a]).Nodup := by
  induction l with
  | nil => simp
  | cons b bs ih =>
    have hb : b ∉ bs := (List.nodup_cons.mp h).1
    have hrec := ih (List.nodup_cons.mp h).2 (fun hm => ha (List.mem_cons_of_mem b hm))
    refine List.nodup_cons.mpr ⟨?_, hrec⟩
    intro hmem
    rcases List.mem_append.mp hmem with hm | hm
    · exact hb hm
    · rcases List.mem_singleton.mp hm with rfl
      exact ha (List.mem_cons_self b bs)

theorem fallbackStep_nodup (ocr : List Token) (acc : List Item) (p : Nat × Token)
    (h : (acc.map Item.amount).Nodup) :
    ((fallbackStep ocr acc p).map Item.amount).Nodup := by
  unfold fallbackStep
  split
  · split
    · exact h
    · rename_i hany
      have hnot : p.2.word ∉ acc.map Item.amount := by
        intro hmem
        obtain ⟨it, hit, heq⟩ := List.mem_map.mp hmem
        apply hany
        exact List.any_eq_true.mpr ⟨it, hit, by simp [heq]⟩
      rw [List.map_append]
      exact nodup_append_single _ _ h hnot
  · exact h

theorem fallbackFold_nodup (ocr : List Token) :
    ∀ (l : List (Nat × Token)) (acc : List Item), (acc.map Item.amount).Nodup →
      ((l.foldl (fallbackStep ocr) acc).map Item.amount).Nodup := by
  intro l
  induction l with
  | nil => intro acc h; exact h
  | cons p ps ih => intro acc h; exact ih _ (fallbackStep_nodup ocr acc p h)

/-- C8.  Whenever the structured table scan yields no rows (so the
fallback scan produces the items), the returned item list never holds two
rows with the same amount string: the fallback deduplicates by amount
before appending. -/
theorem fallback_line_item_dedup (ocr : List Token)
    (h : structuredItems ocr = []) :
    ((extract_line_items ocr).map Item.amount).Nodup := by
  have hfb : extract_line_items ocr = fallbackItems ocr := by
    simp [extract_line_items, h]
  rw [hfb]
  exact fallbackFold_nodup ocr _ [] (by simp)

theorem keyLe_refl (a : DecVal) : keyLe a a := Nat.le_refl _

theorem keyLe_of_keyLt {a b : DecVal} (h : keyLt a b) : keyLe a b := Nat.le_of_lt h

theorem keyLe_of_not_keyLt {a b : DecVal} (h : ¬keyLt a b) : keyLe b a :=
  Nat.le_of_not_lt h

theorem keyLe_trans {a b c : DecVal} (h1 : keyLe a b) (h2 : keyLe b c) : keyLe a c := by
  unfold keyLe at h1 h2 ⊢
  have hA : a.1 * 10 ^ b.2 * 10 ^ c.2 ≤ b.1 * 10 ^ a.2 * 10 ^ c.2 :=
    Nat.mul_le_mul_right _ h1
  have hB : b.1 * 10 ^ c.2 * 10 ^ a.2 ≤ c.1 * 10 ^ b.2 * 10 ^ a.2 :=
    Nat.mul_le_mul_right _ h2
  have hB' : b.1 * 10 ^ a.2 * 10 ^ c.2 ≤ c.1 * 10 ^ a.2 * 10 ^ b.2 := by
    calc b.1 * 10 ^ a.2 * 10 ^ c.2 = b.1 * 10 ^ c.2 * 10 ^ a.2 := by ring
      _ ≤ c.1 * 10 ^ b.2 * 10 ^ a.2 := hB
      _ = c.1 * 10 ^ a.2 * 10 ^ b.2 := by ring
  have hchain : a.1 * 10 ^ c.2 * 10 ^ b.2 ≤ c.1 * 10 ^ a.2 * 10 ^ b.2 := by
    calc a.1 * 10 ^ c.2 * 10 ^ b.2 = a.1 * 10 ^ b.2 * 10 ^ c.2 := by ring
      _ ≤ b.1 * 10 ^ a.2 * 10 ^ c.2 := hA
      _ ≤ c.1 * 10 ^ a.2 * 10 ^ b.2 := hB'
  exact Nat.le_of_mul_le_mul_right hchain (Nat.pos_pow_of_pos _ (by omega))

theorem pyMaxGo_spec (f : String → Option DecVal) :
    ∀ (ys : List String) (cur : String) (kcur : DecVal) (m : String),
      f cur = some kcur → pyMaxGo f cur kcur ys = some m →
      ∃ km, f m = some km ∧ (m = cur ∨ m ∈ ys) ∧ keyLe kcur km ∧
        ∀ y ∈ ys, ∀ ky, f y = some ky → keyLe ky km := by
  intro ys
  induction ys with
  | nil =>
    intro cur kcur m hc hgo
    unfold pyMaxGo at hgo
    injection hgo with hgo
    rw [← hgo]
    exact ⟨kcur, hc, Or.inl rfl, keyLe_refl kcur, by simp⟩
  | cons y ys ih =>
    intro cur kcur m hc hgo
    unfold pyMaxGo at hgo
    cases hfy : f y with
    | none => simp [hfy] at hgo
    | some ky =>
      simp only [hfy] at hgo
      by_cases hlt : keyLt kcur ky
      · rw [if_pos hlt] at hgo
        obtain ⟨km, h1, h2, h3, h4⟩ := ih y ky m hfy hgo
        refine ⟨km, h1, ?_, keyLe_trans (keyLe_of_keyLt hlt) h3, ?_⟩
        · rcases h2 with h2 | h2
          · exact Or.inr (h2 ▸ List.mem_cons_self y ys)
          · exact Or.inr (List.mem_cons_of_mem y h2)
        · intro z hz kz hkz
          rcases List.mem_cons.mp hz with rfl | hz
          · have hzy : kz = ky := by
              rw [hkz] at hfy
              injection hfy
            exact hzy ▸ h3
          · exact h4 z hz kz hkz
      · rw [if_neg hlt] at hgo
        obtain ⟨km, h1, h2, h3, h4⟩ := ih cur kcur m hc hgo
        refine ⟨km, h1, ?_, h3, ?_⟩
        · rcases h2 with h2 | h2
          · exact Or.inl h2
          · exact Or.inr (List.mem_cons_of_mem y h2)
        · intro z hz kz hkz
          rcases List.mem_cons.mp hz with rfl | hz
          · have hzy : kz = ky := by
              rw [hkz] at hfy
              injection hfy
            exact keyLe_trans (hzy ▸ keyLe_of_not_keyLt hlt) h3
          · exact h4 z hz kz hkz

/-- C4 (amended).  When the pattern tier and the anchor tier of
`_extract_total` both fail and the bottom-zone maximum computation
succeeds (every currency-shaped bottom-zone word parses numerically after
separator normalisation), the extracted total is a bottom-zone
currency-shaped word of maximal numeric value — the first such word in
stream order. -/
theorem total_zone_fallback_maximum (ocr : List Token) (m : String)
    (hp : searchPatterns patrones_total (textoCompleto ocr) = none)
    (ha : anchorTotal ocr = none)
    (hmax : pyMaxByKey pyKey (zone2Amounts ocr) = some m) :
    extract_total ocr = Except.ok (some m) ∧ m ∈ zone2Amounts ocr ∧
      ∀ w ∈ zone2Amounts ocr, ∀ kw km, pyKey w = some kw → pyKey m = some km → keyLe kw km := by
  cases hza : zone2Amounts ocr with
  | nil => rw [hza] at hmax; simp [pyMaxByKey] at hmax
  | cons x xs =>
    rw [hza] at hmax
    unfold pyMaxByKey at hmax
    cases hfx : pyKey x with
    | none => simp [hfx] at hmax
    | some kx =>
      simp only [hfx] at hmax
      obtain ⟨km, h1, h2, h3, h4⟩ := pyMaxGo_spec pyKey xs x kx m hfx hmax
      have hmem : m ∈ x :: xs := by
        rcases h2 with h2 | h2
        · exact h2 ▸ List.mem_cons_self x xs
        · exact List.mem_cons_of_mem x h2
      have hmaxim : ∀ w ∈ x :: xs, ∀ (kw km2 : DecVal),
          pyKey w = some kw → pyKey m = some km2 → keyLe kw km2 := by
        intro w hw kw km2 hkw hkm2
        have hkme : km2 = km := by
          rw [h1] at hkm2
          injection hkm2 with he
          exact he.symm
        rcases List.mem_cons.mp hw with rfl | hw
        · have hwx : kw = kx := by
            rw [hkw] at hfx
            injection hfx
          exact hkme ▸ hwx ▸ h3
        · exact hkme ▸ h4 w hw kw hkw
      refine ⟨?_, hmem, hmaxim⟩
      have hz2 : (zoneEntries ocr 2).isEmpty = false := by
        cases hze : zoneEntries ocr 2 with
        | nil =>
          exfalso
          have hempty : zone2Amounts ocr = [] := by
            unfold zone2Amounts
            rw [hze]
            rfl
          rw [hza] at hempty
          simp at hempty
        | cons a as => rfl
      unfold extract_total
      rw [hp, ha]
      simp only [zoneTierTotal, hz2, Bool.false_eq_true, if_false, hza]
      simp [pyMaxByKey, hfx, hmax]

/-!
## Concrete streams used by the claim instances
-/

/-- Build a token from a word and the four box coordinates. -/
def tok (w : String) (a b c d : Nat) : Token := ⟨w, ⟨a, b, c, d⟩⟩

/-- The nine-token end-to-end example stream of the specification. -/
def c2toks : List Token :=
  [tok "FACTURA" 0 0 60 10, tok "24/62" 65 0 100 10, tok "FECHA" 0 20 50 30,
   tok "01/03/24" 55 20 100 30, tok "CLIENTE" 0 40 60 50, tok "ACME" 65 40 100 50,
   tok "SL" 105 40 120 50, tok "TOTAL" 0 900 50 910, tok "150,00" 55 900 100 910]

/-- The record the engine actually produces on `c2toks`. -/
def c2actual : InvoiceData :=
  ⟨some "24/62", some "01/03/24", some "150,00", some "SL", none, []⟩

/-- C2 (counterexample to the claim as stated).  On the nine-token
example stream the engine returns `client_name = "SL"`: the zone-0
heuristic fires on the token `SL` itself, before any wider
reconstruction, so the claimed `client_name = "ACME SL"` is wrong. -/
theorem end_to_end_example_client_name_cex :
    extract_info c2toks = Except.ok c2actual ∧ c2actual.client_name ≠ some "ACME SL" :=
  ⟨rfl, by decide⟩

/-- C2 (amended).  On the nine-token example stream the engine returns
`invoice_number = "24/62"`, `date = "01/03/24"`, `total = "150,00"`,
`client_name = "SL"`, no client id, and an empty item list. -/
theorem end_to_end_example :
    extract_info c2toks =
      Except.ok ⟨some "24/62", some "01/03/24", some "150,00", some "SL", none, []⟩ := rfl

/-- Stream for the C1 counterexample: the full text `CLIENTE ACME SL`
matches the first `client_name` pattern with capture `ACME SL`. -/
def c1toks : List Token :=
  [tok "CLIENTE" 0 0 50 10, tok "ACME" 60 0 100 10, tok "SL" 110 0 130 10]

/-- C1 (counterexample to the claim as stated).  For the field
`client_name` the pattern tier does not take precedence — it is never
consulted: here the first `client_name` pattern matches the full text
with trimmed capture `ACME SL`, yet the extractor returns `SL` (from the
zone-0 strategy). -/
theorem pattern_tier_precedence_client_name_cex :
    searchPatterns patrones_client_name (textoCompleto c1toks) = some "ACME SL" ∧
    (extract_client_info c1toks).2 = some "SL" ∧
    some "SL" ≠ some (pyStrip "ACME SL") :=
  ⟨by decide, rfl, by decide⟩

/-- C1 (amended).  Pattern-tier precedence holds for the four fields
whose extractors consult `self.patrones` — `invoice_number`, `date`,
`client_id` and `total`: whenever the space-joined full text matches one
of the tier-1 patterns of the field (tried in listed order, case
insensitively), the extracted value is the trimmed first capture group of
the first matching pattern, regardless of the anchor or zone tiers.  (For
`client_name` the code never runs a pattern tier.) -/
theorem pattern_tier_precedence (ocr : List Token) :
    (∀ g, searchPatterns patrones_invoice_number (textoCompleto ocr) = some g →
       extract_invoice_number ocr = some (pyStrip g)) ∧
    (∀ g, searchPatterns patrones_date (textoCompleto ocr) = some g →
       extract_date ocr = some (pyStrip g)) ∧
    (∀ g, searchPatterns patrones_client_id (textoCompleto ocr) = some g →
       (extract_client_info ocr).1 = some (pyStrip g)) ∧
    (∀ g, searchPatterns patrones_total (textoCompleto ocr) = some g →
       extract_total ocr = Except.ok (some (pyStrip g))) := by
  refine ⟨?_, ?_, ?_, ?_⟩
  · intro g hg
    unfold extract_invoice_number
    rw [hg]
  · intro g hg
    unfold extract_date
    rw [hg]
  · intro g hg
    simp [extract_client_info, hg]
  · intro g hg
    unfold extract_total
    rw [hg]

/-- Stream for the C1 witness: all four pattern tiers match. -/
def c1wtoks : List Token :=
  [tok "FACTURA" 0 0 10 10, tok "123" 12 0 20 10, tok "FECHA" 0 12 10 22,
   tok "01/02/24" 12 12 30 22, tok "NIF" 0 24 10 34, tok "A12345678" 12 24 40 34,
   tok "TOTAL" 0 36 10 46, tok "10,00" 12 36 30 46]

/-- C1 (witness). -/
theorem pattern_tier_precedence_witness :
    searchPatterns patrones_invoice_number (textoCompleto c1wtoks) = some "123" ∧
    extract_invoice_number c1wtoks = some (pyStrip "123") ∧
    extract_date c1wtoks = some (pyStrip "01/02/24") ∧
    (extract_client_info c1wtoks).1 = some (pyStrip "A12345678") ∧
    extract_total c1wtoks = Except.ok (some (pyStrip "10,00")) :=
  ⟨by decide,
   (pattern_tier_precedence c1wtoks).1 "123" (by decide),
   (pattern_tier_precedence c1wtoks).2.1 "01/02/24" (by decide),
   (pattern_tier_precedence c1wtoks).2.2.1 "A12345678" (by decide),
   (pattern_tier_precedence c1wtoks).2.2.2 "10,00" (by decide)⟩

/-- Stream for the C4 witness: no pattern or anchor matches and the
bottom zone holds the currency words `100,00`, `267,17`, `50,00`. -/
def c4wtoks : List Token :=
  [tok "hola" 0 0 10 10, tok "100,00" 0 900 10 910, tok "267,17" 20 900 30 910,
   tok "50,00" 40 900 50 910]

/-- C4 (witness). -/
theorem total_zone_fallback_maximum_witness :
    pyMaxByKey pyKey (zone2Amounts c4wtoks) = some "267,17" ∧
    extract_total c4wtoks = Except.ok (some "267,17") ∧
    "267,17" ∈ zone2Amounts c4wtoks :=
  ⟨by decide,
   (total_zone_fallback_maximum c4wtoks "267,17" (by decide) (by decide) (by decide)).1,
   (total_zone_fallback_maximum c4wtoks "267,17" (by decide) (by decide) (by decide)).2.1⟩

/-- Stream for the C4 counterexample: the bottom-zone word `12,34abc`
passes the currency prefix test but `float` cannot parse it. -/
def c4cextoks : List Token :=
  [tok "12,34abc" 0 900 10 910, tok "5,00" 20 900 30 910]

/-- C4 (counterexample to the claim as stated).  With both earlier tiers
failing and a currency-shaped token (`5,00`) in the bottom zone, the code
does not return the numerically largest bottom-zone amount: the word
`12,34abc` also enters `importes` (the shape test is a prefix match) and
`float("12.34abc")` raises `ValueError`, so the whole extraction aborts. -/
theorem total_zone_fallback_crash_cex :
    searchPatterns patrones_total (textoCompleto c4cextoks) = none ∧
    anchorTotal c4cextoks = none ∧
    "5,00" ∈ zone2Amounts c4cextoks ∧
    extract_total c4cextoks = Except.error () :=
  ⟨by decide, by decide, by decide, rfl⟩

/-- Stream for the C8 witness: the structured scan finds no table header
and the fallback meets the same amount twice. -/
def c8wtoks : List Token :=
  [tok "12,34" 0 0 10 10, tok "12,34" 0 30 10 40]

/-- C8 (witness). -/
theorem fallback_line_item_dedup_witness :
    structuredItems c8wtoks = [] ∧
    ((extract_line_items c8wtoks).map Item.amount).Nodup :=
  ⟨by decide, fallback_line_item_dedup c8wtoks (by decide)⟩

/-- Stream for the C9 witness. -/
def c9wtoks : List Token :=
  [tok "CONCEPTO" 0 0 10 10, tok "abcd" 0 12 10 22, tok "TOTAL" 0 24 10 34]

/-- C9 (witness). -/
theorem line_item_table_delimitation_witness :
    tablaInicio c9wtoks = some 0 ∧ tablaFinSearch c9wtoks 0 = some 2 ∧
    headerKw (getTok c9wtoks 0) = true ∧ tablaFin c9wtoks 0 = 2 ∧
    boundKw (getTok c9wtoks 2) = true :=
  ⟨by decide, by decide,
   ((line_item_table_delimitation c9wtoks).1 0 (by decide)).2.1,
   (((line_item_table_delimitation c9wtoks).2.2.1) 0 2 (by decide)).1,
   (((line_item_table_delimitation c9wtoks).2.2.1) 0 2 (by decide)).2.2.2.1⟩
